import Mathlib

/-!
Verification of the transcoding orchestration and delivery-cache core of the
video-streaming repository.  The definitions below are a shallow embedding of
the TypeScript sources:

* `StreamingService` (src/unnamed/part_006): `getVideoVariants`,
  `generateHLSManifest`, `generateQualityPlaylist`, `getOptimalQuality`;
* `VideoProcessingService` (src/backend/src/services/video-processing.service.ts):
  `processVideo`, `processWithFFmpeg`, `processWithAWSMediaConvert`,
  `transcodeToMultipleQualities`, `transcodeToQuality`, `checkAWSJobStatus`,
  `updateVideoVariantsFromAWS`, `extractQualityFromPath`;
* `CacheService` (src/backend/src/services/cache.service.ts): the redis-backed
  key/value cache with `setex`/`del` and `invalidateVideoCache`.

External collaborators (ffmpeg, ffprobe, S3, MediaConvert, the filesystem) are
modelled as oracle parameters; the database tables `videos` and
`video_variants` are modelled as explicit state.  The `video_variants` table
carries the unique constraint on (video_id, quality) declared in the
migration (src/unnamed/part_002), so an insert that collides is an error.
Floating point only occurs in `getOptimalQuality` as `bandwidth * 0.8`; the
comparison `bitrate <= bandwidth * 0.8` is modelled exactly over the rationals
as `5 * bitrate <= 4 * bandwidth`.
-/

namespace VideoStreaming

/-- A persisted row of the `video_variants` table (migration in
src/unnamed/part_002), with the columns the core reads and writes. -/
structure VariantRow where
  videoId : String
  quality : String
  bitrate : Nat
  resolutionWidth : Nat
  resolutionHeight : Nat
  filePath : String
  fileSize : Option Nat
  hlsPlaylistUrl : Option String
deriving DecidableEq

/-- The descending-bitrate comparison used by `orderBy bitrate desc` in
`StreamingService.getVideoVariants`. -/
def bitrateDesc (a b : VariantRow) : Prop := b.bitrate ≤ a.bitrate

instance : DecidableRel bitrateDesc := fun a b =>
  inferInstanceAs (Decidable (b.bitrate ≤ a.bitrate))

instance : IsTotal VariantRow bitrateDesc :=
  ⟨fun a b => (Nat.le_total b.bitrate a.bitrate).imp id id⟩

instance : IsTrans VariantRow bitrateDesc :=
  ⟨fun _ _ _ hab hbc => Nat.le_trans hbc hab⟩

/-- `StreamingService.getVideoVariants`: all `video_variants` rows of one
video, ordered by bitrate descending. -/
def getVideoVariants (rows : List VariantRow) (videoId : String) : List VariantRow :=
  List.insertionSort bitrateDesc (rows.filter (fun r => r.videoId == videoId))

/-- The loop body of `StreamingService.getOptimalQuality`: keep advancing the
selection while `variant.bitrate <= targetBitrate`, break at the first variant
above the target.  `targetBitrate = userBandwidth * 0.8` is compared exactly
as `5 * bitrate <= 4 * userBandwidth`. -/
def selectLoop (userBandwidth : Nat) : String → List VariantRow → String
  | optimal, [] => optimal
  | optimal, v :: rest =>
    if 5 * v.bitrate ≤ 4 * userBandwidth then selectLoop userBandwidth v.quality rest
    else optimal

/-- `StreamingService.getOptimalQuality`: iterate the variants returned by
`getVideoVariants` (bitrate descending), starting from
`variants[0]?.quality || '360p'`. -/
def getOptimalQuality (rows : List VariantRow) (videoId : String)
    (userBandwidth : Nat) : String :=
  let variants := getVideoVariants rows videoId
  let optimal :=
    match variants.head? with
    | none => "360p"
    | some v => if v.quality = "" then "360p" else v.quality
  selectLoop userBandwidth optimal variants

/-- Bitrate of the variant row whose quality label `getOptimalQuality`
selected (0 when no row of the video carries the selected label). -/
def selectedBitrate (rows : List VariantRow) (videoId : String)
    (userBandwidth : Nat) : Nat :=
  let chosen := getOptimalQuality rows videoId userBandwidth
  (((rows.filter (fun r => r.videoId == videoId)).find?
      (fun r => r.quality == chosen)).map (fun r => r.bitrate)).getD 0

/-! ## The redis-backed cache (`CacheService`, redis `get`/`setex`/`del`) -/

/-- One redis key with its value and the TTL (seconds) it was set with.
Passive TTL expiry is not modelled; all reads happen within the TTL. -/
structure CacheEntry where
  key : String
  value : String
  ttl : Nat
deriving DecidableEq

abbrev Cache := List CacheEntry

def cacheGet (c : Cache) (k : String) : Option String :=
  (c.find? (fun e => e.key == k)).map (fun e => e.value)

def cacheSetex (c : Cache) (k : String) (ttl : Nat) (v : String) : Cache :=
  ⟨k, v, ttl⟩ :: c.filter (fun e => !(e.key == k))

def cacheDel (c : Cache) (k : String) : Cache :=
  c.filter (fun e => !(e.key == k))

/-- Key of the master manifest cached by `StreamingService.generateHLSManifest`. -/
def manifestKey (videoId : String) : String := "manifest:" ++ videoId

/-- Key of the per-quality playlist cached by
`StreamingService.generateQualityPlaylist`. -/
def playlistKey (videoId quality : String) : String :=
  "playlist:" ++ videoId ++ ":" ++ quality

def metadataKey (videoId : String) : String := "video:metadata:" ++ videoId
def variantsKey (videoId : String) : String := "video:variants:" ++ videoId
def hlsKey (videoId : String) : String := "video:hls:" ++ videoId
def processingKey (videoId : String) : String := "video:processing:" ++ videoId
def analyticsKey (videoId : String) : String := "video:analytics:" ++ videoId
def viewsKey (videoId : String) : String := "video:views:" ++ videoId

/-- `CacheService.invalidateVideoCache`: delete the six `video:*` keys of the
video.  Note it does not touch the `manifest:*` and `playlist:*` keys used by
`StreamingService`. -/
def invalidateVideoCache (c : Cache) (videoId : String) : Cache :=
  [metadataKey videoId, variantsKey videoId, hlsKey videoId,
   processingKey videoId, analyticsKey videoId, viewsKey videoId].foldl
    cacheDel c

/-! ## Manifest generation (`StreamingService`) -/

def masterHeader : String := "#EXTM3U\n#EXT-X-VERSION:3\n\n"

/-- The two lines appended per variant by `generateHLSManifest`. -/
def streamInfBlock (v : VariantRow) : String :=
  "#EXT-X-STREAM-INF:BANDWIDTH=" ++ toString (v.bitrate * 1000) ++
    ",RESOLUTION=" ++ toString v.resolutionWidth ++ "x" ++
    toString v.resolutionHeight ++ "\n" ++ v.quality ++ "/playlist.m3u8\n\n"

/-- The `variants.forEach` accumulation in `generateHLSManifest`. -/
def renderMasterManifest (variants : List VariantRow) : String :=
  variants.foldl (fun m v => m ++ streamInfBlock v) masterHeader

/-- `StreamingService.generateHLSManifest`: cache-first; with no cached entry,
raises when the video has no variants, otherwise renders the master playlist
from the descending-bitrate variant list and caches it for 1800 seconds. -/
def generateHLSManifest (rows : List VariantRow) (videoId : String)
    (c : Cache) : Except String (String × Cache) :=
  match cacheGet c (manifestKey videoId) with
  | some cached => .ok (cached, c)
  | none =>
    let variants := getVideoVariants rows videoId
    if variants.isEmpty then .error "No video variants found"
    else
      let m := renderMasterManifest variants
      .ok (m, cacheSetex c (manifestKey videoId) 1800 m)

/-- The constant playlist text returned by `generateQualityPlaylist`: two
10-second segments named from the quality label, then the end-list marker. -/
def qualityPlaylistText (quality : String) : String :=
  "#EXTM3U\n#EXT-X-VERSION:3\n#EXT-X-TARGETDURATION:10\n" ++
    "#EXT-X-MEDIA-SEQUENCE:0\n#EXTINF:10.0,\n" ++ quality ++
    "_000.ts\n#EXTINF:10.0,\n" ++ quality ++ "_001.ts\n#EXT-X-ENDLIST"

/-- `StreamingService.generateQualityPlaylist`: cache-first; requires a
`video_variants` row with the exact (videoId, quality) pair, else raises; the
returned text depends only on the quality label and is cached 600 seconds. -/
def generateQualityPlaylist (rows : List VariantRow) (videoId quality : String)
    (c : Cache) : Except String (String × Cache) :=
  match cacheGet c (playlistKey videoId quality) with
  | some cached => .ok (cached, c)
  | none =>
    match rows.find? (fun r => r.videoId == videoId && r.quality == quality) with
    | none => .error ("Quality " ++ quality ++ " not found for video " ++ videoId)
    | some _ =>
      let p := qualityPlaylistText quality
      .ok (p, cacheSetex c (playlistKey videoId quality) 600 p)

/-! ## The transcoding orchestrator (`VideoProcessingService`) -/

/-- One entry of `config.video.qualities` (a quality rung). -/
structure QualityRung where
  name : String
  bitrate : Nat
  crf : Nat
  width : Nat
  height : Nat
deriving DecidableEq

/-- The quality rung table of src/backend/src/config/environment.ts. -/
def defaultQualities : List QualityRung :=
  [⟨"240p", 400, 28, 426, 240⟩,
   ⟨"360p", 800, 25, 640, 360⟩,
   ⟨"480p", 1200, 23, 854, 480⟩,
   ⟨"720p", 2500, 21, 1280, 720⟩,
   ⟨"1080p", 5000, 20, 1920, 1080⟩]

/-- The persisted and cached state the orchestrator mutates for one video:
the `videos` row (status, processing_job_id, duration, thumbnail_url), the
`video_variants` table (rows of every video), and the redis cache. -/
structure SysState where
  dbStatus : String
  processingJobId : Option String
  duration : Nat
  thumbnailUrl : Option String
  variants : List VariantRow
  cache : Cache
deriving DecidableEq

/-- The persisted (database) part of a `SysState`: everything except the
redis cache. -/
structure Persisted where
  dbStatus : String
  processingJobId : Option String
  duration : Nat
  thumbnailUrl : Option String
  variants : List VariantRow
deriving DecidableEq

def SysState.persisted (st : SysState) : Persisted :=
  ⟨st.dbStatus, st.processingJobId, st.duration, st.thumbnailUrl, st.variants⟩

/-- Static configuration of the orchestrator: whether AWS credentials are
configured (`config.aws.accessKeyId && config.aws.secretAccessKey`), whether
`config.storage.type === 's3'`, the local storage path, the S3 bucket, and
the quality rung table. -/
structure Config where
  awsConfigured : Bool
  storageS3 : Bool
  localPath : String
  s3Bucket : String
  qualities : List QualityRung

/-- Fields of the JSON processing-status blob written by
`cacheService.cacheProcessingStatus`; `JSON.stringify` is abstracted into the
injective rendering `ProcStatus.toText`. -/
structure ProcStatus where
  status : String
  progress : Nat
  error : Option String
  jobId : Option String
  message : Option String
deriving DecidableEq

def ProcStatus.toText (p : ProcStatus) : String :=
  "status=" ++ p.status ++ ";progress=" ++ toString p.progress ++
    ";error=" ++ (p.error.getD "null") ++ ";jobId=" ++ (p.jobId.getD "null") ++
    ";message=" ++ (p.message.getD "null")

/-- `cacheService.cacheProcessingStatus`: `setex` on the `video:processing:`
key with TTL 300. -/
def cacheProcessingStatus (c : Cache) (videoId : String) (p : ProcStatus) : Cache :=
  cacheSetex c (processingKey videoId) 300 p.toText

/-- True when the `video_variants` table already holds a row for
(videoId, quality) - the unique constraint of the migration. -/
def rowExists (rows : List VariantRow) (videoId quality : String) : Bool :=
  rows.any (fun r => r.videoId == videoId && r.quality == quality)

/-- A `video_variants` insert: rejected by the database when it collides with
the unique constraint on (video_id, quality). -/
def insertVariant (rows : List VariantRow) (row : VariantRow) :
    Except String (List VariantRow) :=
  if rowExists rows row.videoId row.quality then
    .error "duplicate key value violates unique constraint"
  else .ok (rows ++ [row])

/-- The row written by `transcodeToQuality` on a successful local encode of
one rung (`fileSize` from `fs.stat`, playlist under /uploads/processed). -/
def mkLocalRow (videoId outputDir : String) (size : Nat) (q : QualityRung) :
    VariantRow :=
  { videoId := videoId
    quality := q.name
    bitrate := q.bitrate
    resolutionWidth := q.width
    resolutionHeight := q.height
    filePath := outputDir ++ "/" ++ q.name ++ ".m3u8"
    fileSize := some size
    hlsPlaylistUrl := some ("/uploads/processed/" ++ videoId ++ "/" ++ q.name ++ ".m3u8") }

/-- `transcodeToMultipleQualities`: try every rung in order; a rung failure
(encoder error or rejected insert) is caught, logged and skipped; returns the
updated `video_variants` table and the list of variants produced.  The
external encoder outcome per rung is the oracle `encodeOk`, the produced file
size the oracle `encSize`. -/
def transcodeToMultipleQualities (encodeOk : QualityRung → Bool)
    (encSize : QualityRung → Nat) (videoId outputDir : String) :
    List QualityRung → List VariantRow → List VariantRow × List VariantRow
  | [], rows => (rows, [])
  | q :: qs, rows =>
    if encodeOk q then
      match insertVariant rows (mkLocalRow videoId outputDir (encSize q) q) with
      | .ok rows2 =>
        let (rows3, vs) := transcodeToMultipleQualities encodeOk encSize videoId outputDir qs rows2
        (rows3, mkLocalRow videoId outputDir (encSize q) q :: vs)
      | .error _ => transcodeToMultipleQualities encodeOk encSize videoId outputDir qs rows
    else transcodeToMultipleQualities encodeOk encSize videoId outputDir qs rows

/-- `getS3PublicUrl` of src/backend/src/utils/storage.ts (no custom
endpoint configured; region fixed by configuration). -/
def s3PublicUrl (bucket key : String) : String :=
  "https://" ++ bucket ++ ".s3.us-east-1.amazonaws.com/" ++ key

/-- The S3-republish step at the end of `processWithFFmpeg` when
`config.storage.type === 's3'`: each produced variant row gets its
`hls_playlist_url` repointed at the bucket. -/
def republishToS3 (bucket videoId : String) (produced : List VariantRow)
    (rows : List VariantRow) : List VariantRow :=
  rows.map (fun r =>
    let url := s3PublicUrl bucket ("videos/" ++ videoId ++ "/" ++ r.quality ++ ".m3u8")
    if produced.any (fun v => v.videoId == r.videoId && v.quality == r.quality) then
      { r with hlsPlaylistUrl := some url }
    else r)

/-- `processWithFFmpeg` (local strategy): thumbnail, then transcode every
rung, then write the on-disk master playlist (a pure file effect, not
modelled), then optionally republish to S3. -/
def processWithFFmpeg (cfg : Config) (encodeOk : QualityRung → Bool)
    (encSize : QualityRung → Nat) (videoId : String) (st : SysState) : SysState :=
  let outputDir := cfg.localPath ++ "/processed/" ++ videoId
  let thumb := "/uploads/processed/" ++ videoId ++ "/thumbnail.jpg"
  let st := { st with thumbnailUrl := some thumb }
  let res := transcodeToMultipleQualities encodeOk encSize videoId outputDir cfg.qualities st.variants
  let st := { st with variants := res.1 }
  if cfg.storageS3 then
    { st with variants := republishToS3 cfg.s3Bucket videoId res.2 st.variants }
  else st

/-- `processWithAWSMediaConvert` (cloud strategy): upload the source to S3,
submit one MediaConvert job over all rungs (job id from the oracle
`awsJobId`), persist the job id on the `videos` row, generate the thumbnail
locally, and cache a progress-30 status. -/
def processWithAWSMediaConvert (awsJobId videoId : String) (st : SysState) :
    SysState :=
  let st := { st with processingJobId := some awsJobId }
  let thumb := "/uploads/processed/" ++ videoId ++ "/thumbnail.jpg"
  let st := { st with thumbnailUrl := some thumb }
  let msg := "Transcoding job created, processing in progress..."
  let c := cacheProcessingStatus st.cache videoId ⟨"processing", 30, none, some awsJobId, some msg⟩
  { st with cache := c }

/-- `VideoProcessingService.processVideo` along the paths where the external
collaborators (ffprobe, thumbnailing, S3, MediaConvert submission) succeed;
per-rung encoder failures, the failure mode the claims quantify over, come
from the `encodeOk` oracle and are non-fatal.  Note the status is set to
`ready` unconditionally after either strategy returns, and only then is
`invalidateVideoCache` run. -/
def processVideo (cfg : Config) (encodeOk : QualityRung → Bool)
    (encSize : QualityRung → Nat) (probedDuration : Nat)
    (awsJobId videoId : String) (st : SysState) : SysState :=
  let c0 := cacheProcessingStatus st.cache videoId ⟨"processing", 10, none, none, none⟩
  let st := { st with dbStatus := "processing", cache := c0 }
  let st := { st with duration := probedDuration }
  let st :=
    if cfg.awsConfigured then processWithAWSMediaConvert awsJobId videoId st
    else processWithFFmpeg cfg encodeOk encSize videoId st
  let c1 := cacheProcessingStatus st.cache videoId ⟨"ready", 100, none, none, none⟩
  let st := { st with dbStatus := "ready", cache := c1 }
  { st with cache := invalidateVideoCache st.cache videoId }

/-! ## Cloud job polling (`checkAWSJobStatus`) -/

/-- The job report returned by `awsMediaConvertService.getJobStatus`:
status string (SUBMITTED, PROGRESSING, COMPLETE, ERROR), progress estimate,
error message, and - on COMPLETE - the first OutputFilePaths entry of each
output of the output groups (`outputGroupDetails` flattened; `none` models a
missing `outputGroupDetails`). -/
structure AwsJob where
  status : String
  progress : Nat
  errorMessage : Option String
  outputFilePaths : Option (List String)
deriving DecidableEq

/-- `extractQualityFromPath`: match the path against `(\d+p)\.m3u8$` (at
least one digit, then the letter p, then the .m3u8 suffix, at the end of the
path) and look the captured label up in the rung table. -/
def extractQualityFromPath (qualities : List QualityRung) (path : String) :
    Option QualityRung :=
  match path.toList.reverse with
  | '8' :: 'u' :: '3' :: 'm' :: '.' :: 'p' :: rest =>
    let digits := rest.takeWhile (fun ch => ch.isDigit)
    if digits.isEmpty then none
    else qualities.find? (fun q => q.name == String.mk (digits.reverse ++ ['p']))
  | _ => none

/-- The row inserted by `updateVideoVariantsFromAWS` for one completed cloud
output (no file size; playlist URL through CloudFront, `cfUrl` standing for
`getCloudFrontUrl`). -/
def mkAwsRow (cfUrl : String → String) (videoId : String) (q : QualityRung)
    (outputPath : String) : VariantRow :=
  { videoId := videoId
    quality := q.name
    bitrate := q.bitrate
    resolutionWidth := q.width
    resolutionHeight := q.height
    filePath := outputPath
    fileSize := none
    hlsPlaylistUrl :=
      some (cfUrl ("videos/" ++ videoId ++ "/outputs/" ++ q.name ++ ".m3u8")) }

/-- One iteration of the `updateVideoVariantsFromAWS` loop: an unparseable
path is skipped, a parseable one is inserted (the insert raising on the
unique constraint). -/
def insertAwsStep (qualities : List QualityRung) (cfUrl : String → String)
    (videoId : String) (rows : List VariantRow) (p : String) :
    Except String (List VariantRow) :=
  match extractQualityFromPath qualities p with
  | none => .ok rows
  | some q => insertVariant rows (mkAwsRow cfUrl videoId q p)

/-- The insert loop of `updateVideoVariantsFromAWS` over the flattened output
file paths: unparseable paths are skipped; a rejected insert (unique
constraint) raises and aborts the loop. -/
def insertAwsOutputs (qualities : List QualityRung) (cfUrl : String → String)
    (videoId : String) (ps : List String) (rows : List VariantRow) :
    Except String (List VariantRow) :=
  ps.foldlM (insertAwsStep qualities cfUrl videoId) rows

/-- `updateVideoVariantsFromAWS`: a no-op without `outputGroupDetails`, else
the insert loop over the reported output paths. -/
def updateVideoVariantsFromAWS (qualities : List QualityRung)
    (cfUrl : String → String) (videoId : String) (job : AwsJob)
    (rows : List VariantRow) : Except String (List VariantRow) :=
  match job.outputFilePaths with
  | none => .ok rows
  | some ps => insertAwsOutputs qualities cfUrl videoId ps rows

/-- `VideoProcessingService.checkAWSJobStatus` (the pollJob operation):
requires a stored job id; always refreshes the cached status blob; on
COMPLETE inserts the reported variants, sets status `ready` and invalidates
the `video:*` cache keys; on ERROR sets status `failed`; otherwise only the
cache write.  An error raised by the variant inserts propagates before the
status update. -/
def checkAWSJobStatus (qualities : List QualityRung) (cfUrl : String → String)
    (job : AwsJob) (videoId : String) (st : SysState) :
    SysState × Except String AwsJob :=
  match st.processingJobId with
  | none => (st, .error "No processing job found for this video")
  | some jid =>
    let c := cacheProcessingStatus st.cache videoId ⟨job.status, job.progress, job.errorMessage, some jid, none⟩
    let st1 := { st with cache := c }
    if job.status == "COMPLETE" then
      match updateVideoVariantsFromAWS qualities cfUrl videoId job st1.variants with
      | .error e => (st1, .error e)
      | .ok rows =>
        let st2 := { st1 with variants := rows, dbStatus := "ready" }
        ({ st2 with cache := invalidateVideoCache st2.cache videoId }, .ok job)
    else if job.status == "ERROR" then
      ({ st1 with dbStatus := "failed" }, .ok job)
    else (st1, .ok job)

/-! ## Concrete scenarios used by the closed evaluations and witnesses -/

/-- Two persisted renditions of video v1: 240p at 400 kbps and 1080p at
5000 kbps (bitrates from the configured rung table). -/
def c1Rows : List VariantRow :=
  [⟨"v1", "240p", 400, 426, 240, "/data/processed/v1/240p.m3u8", some 10, none⟩,
   ⟨"v1", "1080p", 5000, 1920, 1080, "/data/processed/v1/1080p.m3u8", some 90, none⟩]

/-- Local-strategy configuration: no AWS credentials, local storage. -/
def cfgLocal : Config := ⟨false, false, "/data", "bkt", defaultQualities⟩

/-- Cloud-strategy configuration: AWS credentials configured. -/
def cfgAws : Config := ⟨true, false, "/data", "bkt", defaultQualities⟩

/-- A freshly uploaded video: no variants, empty cache. -/
def st0 : SysState := ⟨"uploading", none, 0, none, [], []⟩

end VideoStreaming

namespace VideoStreaming

/-- C1: with renditions 240p@400 and 1080p@5000 and bandwidth 10000 kbps
(target 8000), the 1080p rendition fits under the target
(5 * 5000 ≤ 4 * 10000) yet `getOptimalQuality` returns "240p", the lowest
bitrate, not the highest fitting one: `getVideoVariants` orders descending
while the selection loop, which breaks at the first variant above target,
expects ascending order. -/
theorem c1_selector_returns_lowest_fitting :
    getOptimalQuality c1Rows "v1" 10000 = "240p" ∧
    5 * 5000 ≤ 4 * 10000 ∧ ("240p" : String) ≠ "1080p" :=
  ⟨rfl, by decide, by decide⟩

/-- C2: local strategy with every rung failing to encode: zero rendition
rows are persisted, but `processVideo` still terminates with status "ready"
(the claim and spec say Failed) because the ready update is unconditional. -/
theorem c2_all_rungs_fail_status_ready :
    (processVideo cfgLocal (fun _ => false) (fun _ => 0) 60 "job-1" "v1" st0).dbStatus
        = "ready" ∧
    (processVideo cfgLocal (fun _ => false) (fun _ => 0) 60 "job-1" "v1" st0).variants
        = [] :=
  ⟨rfl, rfl⟩

/-- C4: cloud strategy: the MediaConvert job id is persisted, but
`processVideo` returns with status "ready" (the claim says it stays
Processing until pollJob observes Complete) while zero rendition rows
exist - so Ready holds with no Rendition. -/
theorem c4_cloud_ready_before_completion :
    (processVideo cfgAws (fun _ => true) (fun _ => 0) 60 "job-1" "v1" st0).dbStatus
        = "ready" ∧
    (processVideo cfgAws (fun _ => true) (fun _ => 0) 60 "job-1" "v1" st0).processingJobId
        = some "job-1" ∧
    (processVideo cfgAws (fun _ => true) (fun _ => 0) 60 "job-1" "v1" st0).variants
        = [] :=
  ⟨rfl, rfl, rfl⟩

/-- C5: on the same rendition set, raising the bandwidth from 100 to 10000
kbps drops the selected bitrate from 5000 to 400: `selectOptimalQuality` is
antitone, not monotone, on this input. -/
theorem c5_not_monotone :
    (100 : Nat) ≤ 10000 ∧
    selectedBitrate c1Rows "v1" 100 = 5000 ∧
    selectedBitrate c1Rows "v1" 10000 = 400 ∧ (400 : Nat) < 5000 :=
  ⟨by decide, rfl, rfl, by decide⟩

end VideoStreaming

namespace VideoStreaming

/-- A master manifest cached for v1 before reprocessing, rendered from an
older rendition set (a single 360p rendition). -/
def c7Stale : String :=
  renderMasterManifest [⟨"v1", "360p", 800, 640, 360, "old", none, none⟩]

/-- Pre-state of the C7 scenario: no variants yet, but the manifest cache
entry from the earlier state is still present. -/
def c7Start : SysState :=
  ⟨"uploading", none, 0, none, [], [⟨manifestKey "v1", c7Stale, 1800⟩]⟩

/-- Post-state of the C7 scenario: a local run in which the 720p rung
succeeds. -/
def c7Final : SysState :=
  processVideo cfgLocal (fun q => q.name == "720p") (fun _ => 7) 60 "job-1" "v1" c7Start

/-- C7: after `processVideo` completes with status "ready", the previously
cached master manifest under `manifest:v1` is still present and differs from
the manifest freshly computed from the persisted rows -
`invalidateVideoCache` only deletes the six `video:*` keys and never the
`manifest:*` key the streaming service reads, so `generateHLSManifest`
keeps serving the stale text. -/
theorem c7_stale_manifest_survives :
    c7Final.dbStatus = "ready" ∧
    cacheGet c7Final.cache (manifestKey "v1") = some c7Stale ∧
    c7Stale ≠ renderMasterManifest (getVideoVariants c7Final.variants "v1") ∧
    generateHLSManifest c7Final.variants "v1" c7Final.cache = .ok (c7Stale, c7Final.cache) :=
  ⟨rfl, rfl, by decide, rfl⟩

/-- C9: a video with zero persisted renditions (and no cached manifest):
`generateHLSManifest` raises the not-found error instead of returning a
partial manifest, while `getOptimalQuality` returns the default label
"360p" without raising. -/
theorem c9_empty_rendition_set (rows : List VariantRow) (videoId : String)
    (c : Cache) (bw : Nat)
    (hrows : rows.filter (fun r => r.videoId == videoId) = [])
    (hmiss : cacheGet c (manifestKey videoId) = none) :
    generateHLSManifest rows videoId c = .error "No video variants found" ∧
    getOptimalQuality rows videoId bw = "360p" := by
  have hv : getVideoVariants rows videoId = [] := by
    unfold getVideoVariants
    rw [hrows]
    rfl
  constructor
  · unfold generateHLSManifest
    rw [hmiss, hv]
    rfl
  · unfold getOptimalQuality
    rw [hv]
    rfl

/-- Witness for C9 at a concrete input: one rendition row of another video,
empty cache, bandwidth 777. -/
theorem c9_empty_rendition_set_witness :
    ([(⟨"v2", "240p", 400, 426, 240, "p", none, none⟩ : VariantRow)].filter
        (fun r => r.videoId == "v1") = []) ∧
    (cacheGet [] (manifestKey "v1") = none) ∧
    (generateHLSManifest [⟨"v2", "240p", 400, 426, 240, "p", none, none⟩] "v1" []
        = .error "No video variants found" ∧
      getOptimalQuality [⟨"v2", "240p", 400, 426, 240, "p", none, none⟩] "v1" 777
        = "360p") :=
  ⟨rfl, rfl, c9_empty_rendition_set _ "v1" [] 777 rfl rfl⟩

/-- Concatenation of the per-variant manifest blocks, in list order. -/
def joinBlocks : List VariantRow → String
  | [] => ""
  | v :: vs => streamInfBlock v ++ joinBlocks vs

theorem foldl_append_blocks (vs : List VariantRow) : ∀ a : String,
    vs.foldl (fun m v => m ++ streamInfBlock v) a = a ++ joinBlocks vs := by
  induction vs with
  | nil =>
    intro a
    simp [joinBlocks]
  | cons v vs ih =>
    intro a
    simp only [List.foldl_cons, joinBlocks, ih, String.append_assoc]

theorem renderMasterManifest_eq (vs : List VariantRow) :
    renderMasterManifest vs = masterHeader ++ joinBlocks vs :=
  foldl_append_blocks vs masterHeader

/-- C6: with at least one persisted rendition of the video (and no cached
manifest), `generateHLSManifest` returns the fixed header followed by one
block per rendition, the blocks ordered by non-increasing bandwidth
(bitrate * 1000), regardless of the row insertion order; each block carries
the bandwidth, the WIDTHxHEIGHT resolution and the relative playlist
reference of its rendition. -/
theorem c6_manifest_sorted (rows : List VariantRow) (videoId : String) (c : Cache)
    (hmiss : cacheGet c (manifestKey videoId) = none)
    (hne : rows.filter (fun r => r.videoId == videoId) ≠ []) :
    ∃ vs : List VariantRow,
      vs.Perm (rows.filter (fun r => r.videoId == videoId)) ∧
      vs.Pairwise (fun a b => b.bitrate * 1000 ≤ a.bitrate * 1000) ∧
      generateHLSManifest rows videoId c =
        .ok (masterHeader ++ joinBlocks vs,
             cacheSetex c (manifestKey videoId) 1800 (masterHeader ++ joinBlocks vs)) := by
  refine ⟨getVideoVariants rows videoId,
    List.perm_insertionSort bitrateDesc _,
    (List.sorted_insertionSort bitrateDesc _).imp
      (fun h => Nat.mul_le_mul_right 1000 h), ?_⟩
  have hvne : (getVideoVariants rows videoId).isEmpty = false := by
    have hlen := (List.perm_insertionSort bitrateDesc
      (rows.filter (fun r => r.videoId == videoId))).length_eq
    rw [List.isEmpty_eq_false_iff_exists_mem]
    rcases hx : rows.filter (fun r => r.videoId == videoId) with _ | ⟨x, xs⟩
    · exact absurd hx hne
    · have : 0 < (getVideoVariants rows videoId).length := by
        unfold getVideoVariants
        rw [hlen, hx]
        exact Nat.succ_pos _
      exact List.exists_mem_of_length_pos this
  unfold generateHLSManifest
  rw [hmiss]
  simp only [hvne, Bool.false_eq_true, if_false, renderMasterManifest_eq]

/-- Witness for C6 at a concrete input: the two renditions of `c1Rows`,
inserted lowest-bitrate first, with an empty cache. -/
theorem c6_manifest_sorted_witness :
    (cacheGet [] (manifestKey "v1") = none) ∧
    (c1Rows.filter (fun r => r.videoId == "v1") ≠ []) ∧
    (∃ vs : List VariantRow,
      vs.Perm (c1Rows.filter (fun r => r.videoId == "v1")) ∧
      vs.Pairwise (fun a b => b.bitrate * 1000 ≤ a.bitrate * 1000) ∧
      generateHLSManifest c1Rows "v1" [] =
        .ok (masterHeader ++ joinBlocks vs,
             cacheSetex [] (manifestKey "v1") 1800 (masterHeader ++ joinBlocks vs))) :=
  ⟨rfl, by decide, c6_manifest_sorted c1Rows "v1" [] rfl (by decide)⟩

/-- C10: whenever a `video_variants` row with the exact (videoId, quality)
pair exists and the playlist is not cached, `generateQualityPlaylist`
returns the constant text `qualityPlaylistText quality` - two 10-second
segments quality_000.ts and quality_001.ts and the end-list marker -
which depends only on the quality label, not on the row's file path, real
segment count or durations; the row is consulted only for existence. -/
theorem c10_playlist_constant (rows : List VariantRow) (videoId quality : String)
    (c : Cache)
    (hmiss : cacheGet c (playlistKey videoId quality) = none)
    (hfound : (rows.find? (fun r => r.videoId == videoId && r.quality == quality)).isSome
        = true) :
    generateQualityPlaylist rows videoId quality c =
      .ok (qualityPlaylistText quality,
           cacheSetex c (playlistKey videoId quality) 600 (qualityPlaylistText quality)) := by
  obtain ⟨r, hr⟩ := Option.isSome_iff_exists.mp hfound
  unfold generateQualityPlaylist
  rw [hmiss, hr]

/-- Witness for C10 at a concrete input: the 240p row of `c1Rows` with an
empty cache. -/
theorem c10_playlist_constant_witness :
    (cacheGet [] (playlistKey "v1" "240p") = none) ∧
    ((c1Rows.find? (fun r => r.videoId == "v1" && r.quality == "240p")).isSome = true) ∧
    generateQualityPlaylist c1Rows "v1" "240p" [] =
      .ok (qualityPlaylistText "240p",
           cacheSetex [] (playlistKey "v1" "240p") 600 (qualityPlaylistText "240p")) :=
  ⟨rfl, by decide, c10_playlist_constant c1Rows "v1" "240p" [] rfl (by decide)⟩

theorem rowExists_eq_false_of_other_video (rows : List VariantRow)
    (videoId qn : String) (h : ∀ r ∈ rows, r.videoId ≠ videoId) :
    rowExists rows videoId qn = false := by
  simp only [rowExists, List.any_eq_false, Bool.and_eq_true, beq_iff_eq, not_and]
  intro r hr he
  exact absurd he (h r hr)

theorem transcode_spec (encodeOk : QualityRung → Bool) (encSize : QualityRung → Nat)
    (videoId outputDir : String) (qs : List QualityRung) :
    ∀ rows : List VariantRow,
      (∀ q ∈ qs, rowExists rows videoId q.name = false) →
      ((qs.map (fun q => q.name)).Nodup) →
      transcodeToMultipleQualities encodeOk encSize videoId outputDir qs rows =
        (rows ++ (qs.filter (fun q => encodeOk q)).map
            (fun q => mkLocalRow videoId outputDir (encSize q) q),
         (qs.filter (fun q => encodeOk q)).map
            (fun q => mkLocalRow videoId outputDir (encSize q) q)) := by
  induction qs with
  | nil =>
    intro rows _ _
    simp [transcodeToMultipleQualities]
  | cons q qs ih =>
    intro rows hclean hnodup
    have hq : rowExists rows videoId q.name = false :=
      hclean q (List.mem_cons_self q qs)
    rw [List.map_cons, List.nodup_cons] at hnodup
    obtain ⟨hqnotin, hnd⟩ := hnodup
    cases hok : encodeOk q with
    | false =>
      rw [transcodeToMultipleQualities, hok]
      simp only [Bool.false_eq_true, if_false]
      rw [ih rows (fun q' hmem => hclean q' (List.mem_cons_of_mem _ hmem)) hnd]
      simp [List.filter_cons, hok]
    | true =>
      have hins : insertVariant rows (mkLocalRow videoId outputDir (encSize q) q)
          = .ok (rows ++ [mkLocalRow videoId outputDir (encSize q) q]) := by
        unfold insertVariant
        rw [show (mkLocalRow videoId outputDir (encSize q) q).videoId = videoId from rfl,
            show (mkLocalRow videoId outputDir (encSize q) q).quality = q.name from rfl,
            hq]
        rfl
      have hclean2 : ∀ q' ∈ qs,
          rowExists (rows ++ [mkLocalRow videoId outputDir (encSize q) q])
            videoId q'.name = false := by
        intro q' hmem
        have h1 := hclean q' (List.mem_cons_of_mem _ hmem)
        have hne : q.name ≠ q'.name :=
          fun he => hqnotin (he ▸ List.mem_map_of_mem _ hmem)
        simp only [rowExists, List.any_append, Bool.or_eq_false_iff]
        refine ⟨h1, ?_⟩
        simp [mkLocalRow, hne]
      rw [transcodeToMultipleQualities, hok]
      simp only [if_true, hins]
      rw [ih _ hclean2 hnd]
      simp [List.filter_cons, hok, List.append_assoc]

/-- C8: local strategy with at least one succeeding rung and distinct rung
names: `processVideo` terminates with status "ready"; the `video_variants`
table ends as the prior rows plus exactly one row per successful rung (in
rung order) and no row for any failed rung, so a failed rung never blocks the
rungs after it; the successful-rung list is non-empty. -/
theorem c8_local_success (cfg : Config) (encodeOk : QualityRung → Bool)
    (encSize : QualityRung → Nat) (dur : Nat) (jid videoId : String) (st : SysState)
    (hcloud : cfg.awsConfigured = false) (hs3 : cfg.storageS3 = false)
    (hnames : (cfg.qualities.map (fun q => q.name)).Nodup)
    (hclean : ∀ r ∈ st.variants, r.videoId ≠ videoId)
    (hone : ∃ q ∈ cfg.qualities, encodeOk q = true) :
    (processVideo cfg encodeOk encSize dur jid videoId st).dbStatus = "ready" ∧
    (processVideo cfg encodeOk encSize dur jid videoId st).variants =
      st.variants ++ (cfg.qualities.filter (fun q => encodeOk q)).map
        (fun q => mkLocalRow videoId (cfg.localPath ++ "/processed/" ++ videoId)
          (encSize q) q) ∧
    (cfg.qualities.filter (fun q => encodeOk q)) ≠ [] := by
  have hclean0 : ∀ q ∈ cfg.qualities, rowExists st.variants videoId q.name = false :=
    fun q _ => rowExists_eq_false_of_other_video st.variants videoId q.name hclean
  have htr := transcode_spec encodeOk encSize videoId
    (cfg.localPath ++ "/processed/" ++ videoId) cfg.qualities st.variants hclean0 hnames
  refine ⟨?_, ?_, ?_⟩
  · simp [processVideo, hcloud]
  · simp [processVideo, processWithFFmpeg, hcloud, hs3, htr]
  · obtain ⟨q, hqmem, hq⟩ := hone
    intro hnil
    have hmem2 : q ∈ cfg.qualities.filter (fun q => encodeOk q) :=
      List.mem_filter.mpr ⟨hqmem, hq⟩
    rw [hnil] at hmem2
    exact List.not_mem_nil q hmem2

/-- Witness for C8 at a concrete input: the default rung table, only the
720p rung succeeding, starting from the fresh state `st0`. -/
theorem c8_local_success_witness :
    (cfgLocal.awsConfigured = false) ∧ (cfgLocal.storageS3 = false) ∧
    ((cfgLocal.qualities.map (fun q => q.name)).Nodup) ∧
    (∀ r ∈ st0.variants, r.videoId ≠ "v1") ∧
    (∃ q ∈ cfgLocal.qualities, (fun q : QualityRung => q.name == "720p") q = true) ∧
    ((processVideo cfgLocal (fun q => q.name == "720p") (fun _ => 7) 60 "j" "v1" st0).dbStatus
        = "ready" ∧
      (processVideo cfgLocal (fun q => q.name == "720p") (fun _ => 7) 60 "j" "v1" st0).variants
        = st0.variants ++ (cfgLocal.qualities.filter
            (fun q : QualityRung => q.name == "720p")).map
          (fun q => mkLocalRow "v1" (cfgLocal.localPath ++ "/processed/" ++ "v1")
            ((fun _ : QualityRung => (7 : Nat)) q) q) ∧
      (cfgLocal.qualities.filter (fun q : QualityRung => q.name == "720p")) ≠ []) := by
  refine ⟨rfl, rfl, by decide, by decide, by decide, ?_⟩
  exact c8_local_success cfgLocal (fun q => q.name == "720p") (fun _ => 7) 60 "j" "v1" st0
    rfl rfl (by decide) (by decide) (by decide)

theorem insertAwsOutputs_nil (qs : List QualityRung) (cfUrl : String → String)
    (videoId : String) (rows : List VariantRow) :
    insertAwsOutputs qs cfUrl videoId [] rows = .ok rows := rfl

theorem insertAwsOutputs_cons (qs : List QualityRung) (cfUrl : String → String)
    (videoId : String) (p : String) (ps : List String) (rows : List VariantRow) :
    insertAwsOutputs qs cfUrl videoId (p :: ps) rows =
      match insertAwsStep qs cfUrl videoId rows p with
      | .error e => .error e
      | .ok rows2 => insertAwsOutputs qs cfUrl videoId ps rows2 := by
  rw [insertAwsOutputs, List.foldlM_cons]
  cases insertAwsStep qs cfUrl videoId rows p with
  | error e => rfl
  | ok rows2 => rfl

theorem insertAwsStep_ok_subset (qs : List QualityRung) (cfUrl : String → String)
    (videoId : String) (rows rows2 : List VariantRow) (p : String)
    (h : insertAwsStep qs cfUrl videoId rows p = .ok rows2) :
    ∀ r ∈ rows, r ∈ rows2 := by
  intro r hr
  unfold insertAwsStep at h
  split at h
  · cases h
    exact hr
  · unfold insertVariant at h
    split at h
    · exact absurd h (by simp)
    · cases h
      exact List.mem_append_left _ hr

theorem insertAwsOutputs_subset (qs : List QualityRung) (cfUrl : String → String)
    (videoId : String) (ps : List String) :
    ∀ rows rows' : List VariantRow,
      insertAwsOutputs qs cfUrl videoId ps rows = .ok rows' →
      ∀ r ∈ rows, r ∈ rows' := by
  induction ps with
  | nil =>
    intro rows rows' h r hr
    rw [insertAwsOutputs_nil] at h
    cases h
    exact hr
  | cons p ps ih =>
    intro rows rows' h r hr
    rw [insertAwsOutputs_cons] at h
    split at h
    · exact absurd h (by simp)
    · next rows2 hstep =>
        exact ih rows2 rows' h r (insertAwsStep_ok_subset qs cfUrl videoId rows rows2 p hstep r hr)

theorem insertAwsOutputs_covers (qs : List QualityRung) (cfUrl : String → String)
    (videoId : String) (ps : List String) :
    ∀ rows rows' : List VariantRow,
      insertAwsOutputs qs cfUrl videoId ps rows = .ok rows' →
      ∀ p ∈ ps, ∀ q : QualityRung, extractQualityFromPath qs p = some q →
        rowExists rows' videoId q.name = true := by
  induction ps with
  | nil =>
    intro rows rows' _ p hp
    exact absurd hp (List.not_mem_nil p)
  | cons p0 ps ih =>
    intro rows rows' h p hp q hq
    rw [insertAwsOutputs_cons] at h
    split at h
    · exact absurd h (by simp)
    · next rows2 hstep =>
        rcases List.mem_cons.mp hp with rfl | hp2
        · have hrow : mkAwsRow cfUrl videoId q p ∈ rows2 := by
            unfold insertAwsStep at hstep
            split at hstep
            · next heq =>
                rw [hq] at heq
                cases heq
            · next q0 heq =>
                rw [hq] at heq
                cases heq
                unfold insertVariant at hstep
                split at hstep
                · exact absurd hstep (by simp)
                · cases hstep
                  exact List.mem_append_right _ (List.mem_singleton_self _)
          have hrow2 := insertAwsOutputs_subset qs cfUrl videoId ps rows2 rows' h _ hrow
          simp only [rowExists, List.any_eq_true]
          exact ⟨mkAwsRow cfUrl videoId q p, hrow2, by simp [mkAwsRow]⟩
        · exact ih rows2 rows' h p hp2 q hq

theorem insertAwsOutputs_replay (qs : List QualityRung) (cfUrl : String → String)
    (videoId : String) (ps : List String) :
    ∀ rows : List VariantRow,
      (∀ p ∈ ps, ∀ q : QualityRung, extractQualityFromPath qs p = some q →
        rowExists rows videoId q.name = true) →
      insertAwsOutputs qs cfUrl videoId ps rows = .ok rows ∨
        ∃ e, insertAwsOutputs qs cfUrl videoId ps rows = .error e := by
  induction ps with
  | nil =>
    intro rows _
    exact .inl rfl
  | cons p ps ih =>
    intro rows hall
    rw [insertAwsOutputs_cons]
    cases hq : extractQualityFromPath qs p with
    | none =>
      have hstep : insertAwsStep qs cfUrl videoId rows p = .ok rows := by
        unfold insertAwsStep
        rw [hq]
      rw [hstep]
      exact ih rows (fun p2 hp2 q hq2 => hall p2 (List.mem_cons_of_mem _ hp2) q hq2)
    | some q =>
      have hex := hall p (List.mem_cons_self p ps) q hq
      have hstep : insertAwsStep qs cfUrl videoId rows p
          = .error "duplicate key value violates unique constraint" := by
        unfold insertAwsStep
        rw [hq]
        show insertVariant rows (mkAwsRow cfUrl videoId q p)
          = Except.error "duplicate key value violates unique constraint"
        unfold insertVariant
        rw [show (mkAwsRow cfUrl videoId q p).videoId = videoId from rfl,
            show (mkAwsRow cfUrl videoId q p).quality = q.name from rfl, hex,
            if_pos rfl]
      rw [hstep]
      exact .inr ⟨_, rfl⟩

/-- C3: once one `checkAWSJobStatus` call has observed the terminal COMPLETE
status and returned successfully, any further call with the same COMPLETE
report leaves the persisted state (status, job id, duration, thumbnail,
variant rows) identical: the status stays "ready" and no additional or
duplicate rendition row is created - a repeated insert is rejected by the
(video_id, quality) unique constraint before any state change, and a report
without output details repeats only idempotent updates. -/
theorem c3_poll_idempotent (qs : List QualityRung) (cfUrl : String → String)
    (job : AwsJob) (videoId : String) (st0 st1 : SysState)
    (hjob : job.status = "COMPLETE")
    (hfirst : checkAWSJobStatus qs cfUrl job videoId st0 = (st1, .ok job)) :
    st1.dbStatus = "ready" ∧
    ((checkAWSJobStatus qs cfUrl job videoId st1).1).persisted = st1.persisted := by
  have hbeq : (job.status == "COMPLETE") = true := by rw [hjob]; rfl
  rw [checkAWSJobStatus] at hfirst
  cases hjid : st0.processingJobId with
  | none =>
    rw [hjid] at hfirst
    exact absurd (congrArg Prod.snd hfirst) (by simp)
  | some jid =>
    rw [hjid] at hfirst
    simp only [hbeq, if_true] at hfirst
    split at hfirst
    · exact absurd (congrArg Prod.snd hfirst) (by simp)
    · next rows hok =>
        have hst1 : st1 = _ := (congrArg Prod.fst hfirst).symm
        subst hst1
        refine ⟨rfl, ?_⟩
        rw [checkAWSJobStatus]
        simp only [hjid, hbeq, if_true]
        unfold updateVideoVariantsFromAWS at hok ⊢
        cases hout : job.outputFilePaths with
        | none =>
          simp only []
          simp [SysState.persisted]
        | some ps =>
          rw [hout] at hok
          have hcov := insertAwsOutputs_covers qs cfUrl videoId ps st0.variants rows hok
          have hrep := insertAwsOutputs_replay qs cfUrl videoId ps rows hcov
          rcases hrep with hok2 | ⟨e, herr2⟩
          · simp only [hok2]
            simp [SysState.persisted]
          · simp only [herr2]
            simp [SysState.persisted]

/-- CloudFront URL builder of the C3 witness scenario. -/
def c3CfUrl : String → String := fun k => "https://cdn.example.com/" ++ k

/-- A COMPLETE MediaConvert report with one 720p output. -/
def c3Job : AwsJob := ⟨"COMPLETE", 100, none, some ["s3://b/videos/v1/outputs/720p.m3u8"]⟩

/-- State of video v1 while its cloud job is in flight. -/
def c3St0 : SysState := ⟨"processing", some "job-1", 60, none, [], []⟩

/-- The rendition row the first poll inserts for the 720p output. -/
def c3Row : VariantRow :=
  mkAwsRow c3CfUrl "v1" ⟨"720p", 2500, 21, 1280, 720⟩ "s3://b/videos/v1/outputs/720p.m3u8"

/-- State of video v1 after the first poll observed COMPLETE. -/
def c3St1 : SysState := ⟨"ready", some "job-1", 60, none, [c3Row], []⟩

/-- Witness for C3 at a concrete input: one COMPLETE 720p output, polled a
second time after the first poll already persisted it. -/
theorem c3_poll_idempotent_witness :
    (c3Job.status = "COMPLETE") ∧
    (checkAWSJobStatus defaultQualities c3CfUrl c3Job "v1" c3St0 = (c3St1, .ok c3Job)) ∧
    (c3St1.dbStatus = "ready" ∧
      ((checkAWSJobStatus defaultQualities c3CfUrl c3Job "v1" c3St1).1).persisted
        = c3St1.persisted) :=
  ⟨rfl, rfl, c3_poll_idempotent defaultQualities c3CfUrl c3Job "v1" c3St0 c3St1 rfl rfl⟩

end VideoStreaming
